import Mathlib

/-!
Shallow embedding of the RustLy event-distribution subsystem.

The single-threaded channel (`crates/ly_events/src/event_channel.rs`) is a
double buffer: two event lists `events_a` / `events_b`, two monotonic
counters `start_idx_a` / `start_idx_b`, and a flag `readable_buffer` saying
which buffer currently serves reads.  The other buffer is "pending" and
receives `send`s.  `UnsafeCell` interior mutability is modelled by explicit
state passing; `Vec<T>` becomes `List T`; `usize` counters become `Nat`
(their increments cannot meaningfully overflow in any claim considered
here, so no `% 2^64` is taken; the one place where wrap-around matters,
`fetch_sub` in the sync writer drop, is modelled with an explicit wrap).
-/

namespace RustLy

inductive ReadableEventBuffer
| A
| B
deriving DecidableEq

structure EventChannel (T : Type) where
  events_a : List T
  events_b : List T
  start_idx_a : Nat
  start_idx_b : Nat
  readable_buffer : ReadableEventBuffer
  writers : Nat
deriving DecidableEq

/-- `EventChannel::new`: empty buffers, zero counters, buffer A readable. -/
def EventChannel.new (T : Type) : EventChannel T :=
  { events_a := []
    events_b := []
    start_idx_a := 0
    start_idx_b := 0
    readable_buffer := ReadableEventBuffer.A
    writers := 0 }

/-- `EventChannel::send`: push onto the non-readable (pending) buffer and
increment that buffer's counter. -/
def EventChannel.send {T : Type} (c : EventChannel T) (e : T) : EventChannel T :=
  match c.readable_buffer with
  | ReadableEventBuffer.A =>
    { c with events_b := c.events_b ++ [e], start_idx_b := c.start_idx_b + 1 }
  | ReadableEventBuffer.B =>
    { c with events_a := c.events_a ++ [e], start_idx_a := c.start_idx_a + 1 }

/-- `EventChannel::flush`: clear the currently readable buffer, swap the
readable flag, and re-base the now-pending buffer's counter to the new
readable buffer's counter. -/
def EventChannel.flush {T : Type} (c : EventChannel T) : EventChannel T :=
  match c.readable_buffer with
  | ReadableEventBuffer.A =>
    { c with
        events_a := []
        readable_buffer := ReadableEventBuffer.B
        start_idx_a := c.start_idx_b }
  | ReadableEventBuffer.B =>
    { c with
        events_b := []
        readable_buffer := ReadableEventBuffer.A
        start_idx_b := c.start_idx_a }

/-- `EventChannel::get_writer` increments the writer count (the returned
`EventWriter` handle is just a borrow of the channel, so only the updated
channel state is modelled). -/
def EventChannel.get_writer {T : Type} (c : EventChannel T) : EventChannel T :=
  { c with writers := c.writers + 1 }

/-- `impl Drop for EventWriter::drop` — translated verbatim from the source:
the drop handler executes `*writers += 1`, i.e. it INCREMENTS the count. -/
def EventWriter.drop {T : Type} (c : EventChannel T) : EventChannel T :=
  { c with writers := c.writers + 1 }

/-- `EventChannel::has_writers`: `*writers != 0`. -/
def EventChannel.has_writers {T : Type} (c : EventChannel T) : Bool :=
  c.writers != 0

/-- Single-threaded `EventReader`: its only state is the `read_events`
cursor (the channel reference is passed explicitly to `read`). -/
structure EventReader where
  read_events : Nat
deriving DecidableEq

/-- `EventChannel::get_reader`: cursor starts at 0. -/
def EventChannel.get_reader {T : Type} (_c : EventChannel T) : EventReader :=
  { read_events := 0 }

/-- `EventReader::read`: compare the cursor with the readable buffer's
counter; if the cursor is larger the generation was already drained and the
iterator is empty, otherwise set the cursor to counter + 1 and yield the
whole readable buffer.  Returns (yielded events, updated cursor). -/
def EventReader.read {T : Type} (c : EventChannel T) (read_events : Nat) :
    List T × Nat :=
  match c.readable_buffer with
  | ReadableEventBuffer.A =>
    if read_events > c.start_idx_a then ([], read_events)
    else (c.events_a, c.start_idx_a + 1)
  | ReadableEventBuffer.B =>
    if read_events > c.start_idx_b then ([], read_events)
    else (c.events_b, c.start_idx_b + 1)

/-- The buffer currently serving reads. -/
def EventChannel.readableEvents {T : Type} (c : EventChannel T) : List T :=
  match c.readable_buffer with
  | ReadableEventBuffer.A => c.events_a
  | ReadableEventBuffer.B => c.events_b

/-- The counter of the buffer currently serving reads. -/
def EventChannel.readableIdx {T : Type} (c : EventChannel T) : Nat :=
  match c.readable_buffer with
  | ReadableEventBuffer.A => c.start_idx_a
  | ReadableEventBuffer.B => c.start_idx_b

/-- The buffer currently accumulating sends. -/
def EventChannel.pendingEvents {T : Type} (c : EventChannel T) : List T :=
  match c.readable_buffer with
  | ReadableEventBuffer.A => c.events_b
  | ReadableEventBuffer.B => c.events_a

/-- The counter of the buffer currently accumulating sends. -/
def EventChannel.pendingIdx {T : Type} (c : EventChannel T) : Nat :=
  match c.readable_buffer with
  | ReadableEventBuffer.A => c.start_idx_b
  | ReadableEventBuffer.B => c.start_idx_a

/-- A sequence of sends (events are pushed one at a time, left to right). -/
def EventChannel.sendAll {T : Type} (c : EventChannel T) (es : List T) :
    EventChannel T :=
  es.foldl EventChannel.send c

/-- Operations a client can perform on the single-threaded channel.  A
reader's `read` mutates only the reader's own cursor, never the channel, so
it is the identity on the channel state. -/
inductive ChanOp (T : Type)
| send (e : T)
| flush
| read

def EventChannel.applyOp {T : Type} (c : EventChannel T) : ChanOp T → EventChannel T
| ChanOp.send e => c.send e
| ChanOp.flush => c.flush
| ChanOp.read => c

def EventChannel.applyOps {T : Type} (c : EventChannel T) (ops : List (ChanOp T)) :
    EventChannel T :=
  ops.foldl EventChannel.applyOp c

/-- States reachable from a fresh channel by sends, flushes and reads. -/
def Reachable {T : Type} (c : EventChannel T) : Prop :=
  ∃ ops : List (ChanOp T), (EventChannel.new T).applyOps ops = c

/- ### Basic lemmas about the single-threaded channel -/

theorem sendAll_readable_buffer {T : Type} (es : List T) (c : EventChannel T) :
    (c.sendAll es).readable_buffer = c.readable_buffer := by
  induction es generalizing c with
  | nil => rfl
  | cons e es ih =>
    show ((c.send e).sendAll es).readable_buffer = _
    rw [ih]
    unfold EventChannel.send
    cases c.readable_buffer <;> rfl

theorem sendAll_readableEvents {T : Type} (es : List T) (c : EventChannel T) :
    (c.sendAll es).readableEvents = c.readableEvents := by
  induction es generalizing c with
  | nil => rfl
  | cons e es ih =>
    show ((c.send e).sendAll es).readableEvents = _
    rw [ih]
    unfold EventChannel.send EventChannel.readableEvents
    cases c.readable_buffer <;> rfl

theorem sendAll_readableIdx {T : Type} (es : List T) (c : EventChannel T) :
    (c.sendAll es).readableIdx = c.readableIdx := by
  induction es generalizing c with
  | nil => rfl
  | cons e es ih =>
    show ((c.send e).sendAll es).readableIdx = _
    rw [ih]
    unfold EventChannel.send EventChannel.readableIdx
    cases c.readable_buffer <;> rfl

theorem sendAll_pendingEvents {T : Type} (es : List T) (c : EventChannel T) :
    (c.sendAll es).pendingEvents = c.pendingEvents ++ es := by
  induction es generalizing c with
  | nil => simp [EventChannel.sendAll]
  | cons e es ih =>
    show ((c.send e).sendAll es).pendingEvents = _
    rw [ih]
    unfold EventChannel.send EventChannel.pendingEvents
    cases c.readable_buffer <;> simp

theorem sendAll_pendingIdx {T : Type} (es : List T) (c : EventChannel T) :
    (c.sendAll es).pendingIdx = c.pendingIdx + es.length := by
  induction es generalizing c with
  | nil => rfl
  | cons e es ih =>
    show ((c.send e).sendAll es).pendingIdx = _
    rw [ih]
    unfold EventChannel.send EventChannel.pendingIdx
    cases c.readable_buffer <;> simp <;> omega

theorem flush_readableEvents {T : Type} (c : EventChannel T) :
    c.flush.readableEvents = c.pendingEvents := by
  unfold EventChannel.flush EventChannel.readableEvents EventChannel.pendingEvents
  cases c.readable_buffer <;> rfl

theorem flush_readableIdx {T : Type} (c : EventChannel T) :
    c.flush.readableIdx = c.pendingIdx := by
  unfold EventChannel.flush EventChannel.readableIdx EventChannel.pendingIdx
  cases c.readable_buffer <;> rfl

theorem flush_pendingEvents {T : Type} (c : EventChannel T) :
    c.flush.pendingEvents = [] := by
  unfold EventChannel.flush EventChannel.pendingEvents
  cases c.readable_buffer <;> rfl

theorem flush_pendingIdx {T : Type} (c : EventChannel T) :
    c.flush.pendingIdx = c.pendingIdx := by
  unfold EventChannel.flush EventChannel.pendingIdx
  cases c.readable_buffer <;> rfl

theorem read_of_le {T : Type} (c : EventChannel T) (cur : Nat)
    (h : cur ≤ c.readableIdx) :
    EventReader.read c cur = (c.readableEvents, c.readableIdx + 1) := by
  unfold EventReader.read EventChannel.readableEvents EventChannel.readableIdx
  unfold EventChannel.readableIdx at h
  cases hb : c.readable_buffer <;> rw [hb] at h <;> simp [Nat.not_lt.mpr h]

theorem read_of_gt {T : Type} (c : EventChannel T) (cur : Nat)
    (h : c.readableIdx < cur) :
    EventReader.read c cur = ([], cur) := by
  unfold EventReader.read
  unfold EventChannel.readableIdx at h
  cases hb : c.readable_buffer <;> rw [hb] at h <;> simp [h]

/- ### The counter invariant and reachability -/

/-- The invariant maintained by every operation: the pending counter equals
the readable counter plus the pending buffer's length, and the readable
buffer is no longer than its counter. -/
def Inv {T : Type} (c : EventChannel T) : Prop :=
  c.pendingIdx = c.readableIdx + c.pendingEvents.length ∧
  c.readableEvents.length ≤ c.readableIdx

theorem inv_new (T : Type) : Inv (EventChannel.new T) := by
  constructor <;> rfl

theorem inv_send {T : Type} (c : EventChannel T) (e : T) (h : Inv c) :
    Inv (c.send e) := by
  obtain ⟨ea, eb, ia, ib, rb, w⟩ := c
  cases rb <;>
    simp [Inv, EventChannel.send, EventChannel.pendingIdx,
      EventChannel.readableIdx, EventChannel.pendingEvents,
      EventChannel.readableEvents] at * <;> omega

theorem inv_flush {T : Type} (c : EventChannel T) (h : Inv c) :
    Inv c.flush := by
  obtain ⟨ea, eb, ia, ib, rb, w⟩ := c
  cases rb <;>
    simp [Inv, EventChannel.flush, EventChannel.pendingIdx,
      EventChannel.readableIdx, EventChannel.pendingEvents,
      EventChannel.readableEvents] at * <;> omega

theorem inv_applyOp {T : Type} (c : EventChannel T) (op : ChanOp T) (h : Inv c) :
    Inv (c.applyOp op) := by
  cases op with
  | send e => exact inv_send c e h
  | flush => exact inv_flush c h
  | read => exact h

theorem inv_applyOps {T : Type} (c : EventChannel T) (ops : List (ChanOp T))
    (h : Inv c) : Inv (c.applyOps ops) := by
  induction ops generalizing c with
  | nil => exact h
  | cons op ops ih => exact ih (c.applyOp op) (inv_applyOp c op h)

theorem reachable_inv {T : Type} (c : EventChannel T) (h : Reachable c) :
    Inv c := by
  obtain ⟨ops, hops⟩ := h
  rw [← hops]
  exact inv_applyOps (EventChannel.new T) ops (inv_new T)

/- ### Multi-reader state for the single-threaded channel -/

/-- A channel together with the cursors of all its readers (reader handles
are identified by a `Nat` index; each owns one `read_events` cursor). -/
structure ChannelState (T : Type) where
  channel : EventChannel T
  cursors : Nat → Nat

/-- A `read` performed by reader `rid`: mutates only that reader's cursor;
the channel itself is untouched (in the source, `EventReader::read` writes
only through `self.read_events`). -/
def ChannelState.readOp {T : Type} (s : ChannelState T) (rid : Nat) :
    ChannelState T × List T :=
  let r := EventReader.read s.channel (s.cursors rid)
  ({ channel := s.channel
     cursors := fun i => if i = rid then r.2 else s.cursors i }, r.1)

/- ### Thread-safe channel (`sync_event_channel.rs`) -/

/-- `event_signal::add_waiter`: push the unparker (modelled by a `Nat`
parker id) onto the waiter list. -/
def add_waiter (waiters : List Nat) (p : Nat) : List Nat :=
  waiters ++ [p]

/-- `event_signal::signal_waiters`: unpark every registered waiter and
clear the list.  Returns (new list, unparked ids). -/
def signal_waiters (waiters : List Nat) : List Nat × List Nat :=
  ([], waiters)

/-- `SyncEventChannel`: the single-threaded channel plus the two waiter
lists and the sync channel's own writer counter (`AtomicUsize`); the locks
serialise the operations, which the sequential embedding models by making
each operation one atomic step. -/
structure SyncEventChannel (T : Type) where
  channel : EventChannel T
  new_event_waiters : List Nat
  flushed_waiters : List Nat
  writers : Nat
deriving DecidableEq

/-- `SyncEventChannel::default`. -/
def SyncEventChannel.default (T : Type) : SyncEventChannel T :=
  { channel := EventChannel.new T
    new_event_waiters := []
    flushed_waiters := []
    writers := 0 }

/-- `SyncEventChannel::send`: append under the write mutex, then signal the
new-event waiters.  Returns (new state, unparked parker ids). -/
def SyncEventChannel.send {T : Type} (s : SyncEventChannel T) (e : T) :
    SyncEventChannel T × List Nat :=
  let sig := signal_waiters s.new_event_waiters
  ({ s with channel := s.channel.send e, new_event_waiters := sig.1 }, sig.2)

/-- `SyncEventChannel::flush`: flush under the exclusive flush lock, then
signal the flushed waiters. -/
def SyncEventChannel.flush {T : Type} (s : SyncEventChannel T) :
    SyncEventChannel T × List Nat :=
  let sig := signal_waiters s.flushed_waiters
  ({ s with channel := s.channel.flush, flushed_waiters := sig.1 }, sig.2)

/-- `SyncEventChannel::get_writer`: `fetch_add(1)` on the writer counter. -/
def SyncEventChannel.get_writer {T : Type} (s : SyncEventChannel T) :
    SyncEventChannel T :=
  { s with writers := s.writers + 1 }

/-- `usize` subtraction of 1 with wrap-around, as `AtomicUsize::fetch_sub`
behaves on a 64-bit target. -/
def usizeSub1 (w : Nat) : Nat :=
  if w = 0 then 2 ^ 64 - 1 else w - 1

/-- `impl Drop for SyncEventWriter::drop`: `fetch_sub(1)`; if the count is
now zero, signal BOTH waiter sets. -/
def SyncEventWriter.drop {T : Type} (s : SyncEventChannel T) :
    SyncEventChannel T × List Nat :=
  let w := usizeSub1 s.writers
  if w = 0 then
    ({ s with writers := w, new_event_waiters := [], flushed_waiters := [] },
     s.new_event_waiters ++ s.flushed_waiters)
  else
    ({ s with writers := w }, [])

/-- `SyncEventChannel::has_writers`: atomic load `!= 0`. -/
def SyncEventChannel.has_writers {T : Type} (s : SyncEventChannel T) : Bool :=
  s.writers != 0

/-- `SyncEventChannel::has_new_events`: the non-readable (pending) buffer
is non-empty.  Called with the write mutex held. -/
def SyncEventChannel.has_new_events {T : Type} (s : SyncEventChannel T) : Bool :=
  match s.channel.readable_buffer with
  | ReadableEventBuffer.A => !s.channel.events_b.isEmpty
  | ReadableEventBuffer.B => !s.channel.events_a.isEmpty

/-- Thread-safe `SyncEventReader`: like the single-threaded reader its only
state is the `read_events` cursor. -/
structure SyncEventReader where
  read_events : Nat
deriving DecidableEq

/-- `SyncEventChannel::get_reader`: the cursor starts at 1, not 0 (the
source comment reads `// avoid stupid stuff when read=0`). -/
def SyncEventChannel.get_reader {T : Type} (_s : SyncEventChannel T) :
    SyncEventReader :=
  { read_events := 1 }

/-- `SyncEventReader::has_unread`: cursor ≤ readable counter. -/
def SyncEventReader.has_unread {T : Type} (c : EventChannel T)
    (read_events : Nat) : Bool :=
  decide (read_events ≤ c.readableIdx)

/-- `SyncEventReader::read`: under the shared flush lock, return the empty
iterator when `has_unread` is false, otherwise set the cursor to
counter + 1 and yield the whole readable buffer. -/
def SyncEventReader.read {T : Type} (c : EventChannel T) (read_events : Nat) :
    List T × Nat :=
  if SyncEventReader.has_unread c read_events then
    (c.readableEvents, c.readableIdx + 1)
  else
    ([], read_events)

/-- Outcome of a wait entry point: return at once, or park the thread. -/
inductive WaitOutcome
| immediate
| parked
deriving DecidableEq

/-- `SyncEventReader::wait_new`: under the write mutex, return immediately
when unflushed events exist, else register a fresh parker (id `pid`) on the
new-event waiters and park. -/
def SyncEventReader.wait_new {T : Type} (s : SyncEventChannel T) (pid : Nat) :
    WaitOutcome × SyncEventChannel T :=
  if s.has_new_events then (WaitOutcome.immediate, s)
  else
    (WaitOutcome.parked,
     { s with new_event_waiters := add_waiter s.new_event_waiters pid })

/-- `SyncEventReader::wait_flushed`: under the exclusive flush lock, return
immediately when the reader has an unread generation, else register on the
flushed waiters and park. -/
def SyncEventReader.wait_flushed {T : Type} (s : SyncEventChannel T)
    (read_events : Nat) (pid : Nat) : WaitOutcome × SyncEventChannel T :=
  if SyncEventReader.has_unread s.channel read_events then
    (WaitOutcome.immediate, s)
  else
    (WaitOutcome.parked,
     { s with flushed_waiters := add_waiter s.flushed_waiters pid })

/-- `SyncEventReader::add_unparker_new` (the `EventWaiter` capability):
under the write mutex, fail without registering when unflushed events are
already pending, else register the parker on the new-event waiters. -/
def SyncEventReader.add_unparker_new {T : Type} (s : SyncEventChannel T)
    (pid : Nat) : Except String (SyncEventChannel T) :=
  if s.has_new_events then
    Except.error ("already new unflushed events")
  else
    Except.ok { s with new_event_waiters := add_waiter s.new_event_waiters pid }

/-- `wait_any_new`: build one parker, try to register it with each reader's
channel in order; the first channel that reports pre-existing data causes
immediate return (no park, later channels untouched); if all registrations
succeed, park.  Returns the outcome and the channel states. -/
def wait_any_new {T : Type} (readers : List (SyncEventChannel T)) (pid : Nat) :
    WaitOutcome × List (SyncEventChannel T) :=
  match readers with
  | [] => (WaitOutcome.parked, [])
  | s :: rest =>
    match SyncEventReader.add_unparker_new s pid with
    | Except.error _ => (WaitOutcome.immediate, s :: rest)
    | Except.ok s2 =>
      let r := wait_any_new rest pid
      (r.1, s2 :: r.2)

/-- The state change a successful `add_unparker_new` performs: register the
parker on the channel's new-event waiter list. -/
def registerNewWaiter {T : Type} (pid : Nat) (s : SyncEventChannel T) :
    SyncEventChannel T :=
  { s with new_event_waiters := add_waiter s.new_event_waiters pid }

/-- One atomic step of the thread-safe channel, with the parker ids it
unparks.  A `SyncEventReader::read` mutates only the calling reader's
cursor, which is not part of the shared state, so it is not listed. -/
inductive SyncOp (T : Type)
| send (e : T)
| flush
| get_writer
| drop_writer
| wait_new (pid : Nat)
| wait_flushed (read_events pid : Nat)

def SyncEventChannel.applyOp {T : Type} (s : SyncEventChannel T) :
    SyncOp T → SyncEventChannel T × List Nat
| SyncOp.send e => s.send e
| SyncOp.flush => s.flush
| SyncOp.get_writer => (s.get_writer, [])
| SyncOp.drop_writer => SyncEventWriter.drop s
| SyncOp.wait_new pid => ((SyncEventReader.wait_new s pid).2, [])
| SyncOp.wait_flushed cur pid => ((SyncEventReader.wait_flushed s cur pid).2, [])

/- ### Type-indexed resource registry (`ly_app/src/world.rs`) -/

/-- Modelled from the spec: `state::container::ContainerSendSync`, the
third-party container `World` delegates to, is not part of this repository.
§6 gives its contract: a type-indexed store with at most one instance per
type, `set` storing a value only when none of that type is present (first
writer wins, returning whether it stored) and `try_get` returning the
stored value if any.  Types are identified here by a `Nat` type id; the
claims need no heterogeneity, so values live in one type `V`. -/
structure ContainerSendSync (V : Type) where
  entries : List (Nat × V)
deriving DecidableEq

def ContainerSendSync.try_get {V : Type} (c : ContainerSendSync V) (tid : Nat) :
    Option V :=
  (c.entries.find? (fun p => p.1 == tid)).map Prod.snd

def ContainerSendSync.set {V : Type} (c : ContainerSendSync V) (tid : Nat)
    (v : V) : Bool × ContainerSendSync V :=
  match c.try_get tid with
  | some _ => (false, c)
  | none => (true, { entries := c.entries ++ [(tid, v)] })

/-- `World::set_resource`: `Ok` when the container stored the value, the
already-present error otherwise (in which case the store is unchanged and
the caller keeps the old container state). -/
def World.set_resource {V : Type} (w : ContainerSendSync V) (tid : Nat)
    (v : V) : Except String (ContainerSendSync V) :=
  let r := w.set tid v
  if r.1 then Except.ok r.2 else Except.error ("Resource already set")

/-- `World::get_resource`: the stored value, or the not-found error (the
source misspells it as "No suce resource"). -/
def World.get_resource {V : Type} (w : ContainerSendSync V) (tid : Nat) :
    Except String V :=
  match w.try_get tid with
  | some v => Except.ok v
  | none => Except.error ("No suce resource")

/- ### Shared helper lemmas -/

theorem sync_read_eq_read {T : Type} (c : EventChannel T) (cur : Nat) :
    SyncEventReader.read c cur = EventReader.read c cur := by
  by_cases h : cur ≤ c.readableIdx
  · rw [read_of_le c cur h]
    simp [SyncEventReader.read, SyncEventReader.has_unread, h]
  · rw [read_of_gt c cur (Nat.lt_of_not_le h)]
    simp [SyncEventReader.read, SyncEventReader.has_unread, h]

theorem read_fst_cases {T : Type} (c : EventChannel T) (cur : Nat) :
    (EventReader.read c cur).1 = c.readableEvents ∨
      (EventReader.read c cur).1 = [] := by
  by_cases h : cur ≤ c.readableIdx
  · left; rw [read_of_le c cur h]
  · right; rw [read_of_gt c cur (Nat.lt_of_not_le h)]

theorem read_snd_gt {T : Type} (c : EventChannel T) (cur : Nat)
    (h : cur ≤ c.readableIdx) :
    c.readableIdx < (EventReader.read c cur).2 := by
  rw [read_of_le c cur h]
  exact Nat.lt_succ_self _

theorem second_read_empty {T : Type} (c : EventChannel T) (cur : Nat) :
    (EventReader.read c (EventReader.read c cur).2).1 = [] := by
  by_cases h : cur ≤ c.readableIdx
  · rw [read_of_gt c _ (read_snd_gt c cur h)]
  · rw [read_of_gt c cur (Nat.lt_of_not_le h), read_of_gt c cur (Nat.lt_of_not_le h)]

/-- `has_new_events` is exactly "the pending buffer is non-empty". -/
theorem has_new_events_iff_pending {T : Type} (s : SyncEventChannel T) :
    s.has_new_events = true ↔ s.channel.pendingEvents ≠ [] := by
  unfold SyncEventChannel.has_new_events EventChannel.pendingEvents
  cases s.channel.readable_buffer <;> simp

/- ### Claim theorems -/

/-- Claim C1: for the single-threaded channel, for every finite sequence of
events sent since the previous flush followed by exactly one flush, a
reader created after that flush observes on its first read exactly those
events, in the order they were sent, each exactly once. -/
theorem claim_C1_reader_after_flush_reads_sends {T : Type}
    (c : EventChannel T) (es : List T) :
    (EventReader.read ((c.flush.sendAll es).flush)
      (((c.flush.sendAll es).flush).get_reader).read_events).1 = es := by
  have h0 : (((c.flush.sendAll es).flush).get_reader).read_events = 0 := rfl
  rw [h0, read_of_le _ _ (Nat.zero_le _)]
  show ((c.flush.sendAll es).flush).readableEvents = es
  rw [flush_readableEvents, sendAll_pendingEvents, flush_pendingEvents]
  rfl

/-- Claim C2 (code bug): evaluation at the failing input.  On the
single-threaded channel, creating one writer and dropping it leaves the
writer count at 2 (the `Drop` impl executes `*writers += 1`), so
`channel_has_writers()` stays true; on the thread-safe channel the same
sequence correctly reaches 0. -/
theorem claim_C2_writer_drop_eval :
    (EventWriter.drop ((EventChannel.new Nat).get_writer)).writers = 2 ∧
    (EventWriter.drop ((EventChannel.new Nat).get_writer)).has_writers = true ∧
    (SyncEventWriter.drop ((SyncEventChannel.default Nat).get_writer)).1.writers
      = 0 ∧
    (SyncEventWriter.drop
        ((SyncEventChannel.default Nat).get_writer)).1.has_writers = false := by
  refine ⟨rfl, rfl, ?_, ?_⟩ <;> rfl

/-- Claim C3 counterexample: `SyncEventChannel::get_reader` returns a
reader whose cursor is 1, not 0, and on a fresh channel that cursor is NOT
≤ the readable counter (so the fresh reader is not in the Unread state). -/
theorem claim_C3_counterexample :
    ((SyncEventChannel.default Nat).get_reader).read_events = 1 ∧
    ((SyncEventChannel.default Nat).get_reader).read_events ≠ 0 ∧
    ¬(((SyncEventChannel.default Nat).get_reader).read_events
        ≤ (SyncEventChannel.default Nat).channel.readableIdx) := by
  refine ⟨rfl, by decide, by decide⟩

/-- Claim C3, amended: the single-threaded `get_reader` returns cursor 0
(and such a reader is Unread: 0 ≤ counter); the thread-safe `get_reader`
returns cursor 1.  In both cases the fresh reader has consumed nothing: on
every reachable channel state, the first read of a fresh reader of either
kind yields the full readable generation (when the readable counter is 0
the readable buffer is empty, so the cursor-1 reader misses nothing). -/
theorem claim_C3_get_reader_cursor {T : Type} (c : EventChannel T)
    (s : SyncEventChannel T) (h : Reachable c) :
    (c.get_reader).read_events = 0 ∧
    (s.get_reader).read_events = 1 ∧
    (c.get_reader).read_events ≤ c.readableIdx ∧
    (EventReader.read c (c.get_reader).read_events).1 = c.readableEvents ∧
    (SyncEventReader.read c (s.get_reader).read_events).1 = c.readableEvents := by
  refine ⟨rfl, rfl, Nat.zero_le _, ?_, ?_⟩
  · rw [show (c.get_reader).read_events = 0 from rfl,
      read_of_le c 0 (Nat.zero_le _)]
  · rw [show (s.get_reader).read_events = 1 from rfl, sync_read_eq_read]
    by_cases h1 : 1 ≤ c.readableIdx
    · rw [read_of_le c 1 h1]
    · have hidx : c.readableIdx = 0 := by omega
      have hlen : c.readableEvents.length ≤ 0 := by
        have := (reachable_inv c h).2
        omega
      have hnil : c.readableEvents = [] := List.eq_nil_of_length_eq_zero
        (Nat.le_zero.mp hlen)
      rw [read_of_gt c 1 (by omega), hnil]

theorem claim_C3_witness :
    Reachable (((EventChannel.new Nat).send 5).flush) ∧
    ((((EventChannel.new Nat).send 5).flush).get_reader).read_events = 0 ∧
    ((SyncEventChannel.default Nat).get_reader).read_events = 1 ∧
    (EventReader.read (((EventChannel.new Nat).send 5).flush)
        ((((EventChannel.new Nat).send 5).flush).get_reader).read_events).1
      = (((EventChannel.new Nat).send 5).flush).readableEvents ∧
    (SyncEventReader.read (((EventChannel.new Nat).send 5).flush)
        (((SyncEventChannel.default Nat)).get_reader).read_events).1
      = (((EventChannel.new Nat).send 5).flush).readableEvents := by
  have h : Reachable (((EventChannel.new Nat).send 5).flush) :=
    ⟨[ChanOp.send 5, ChanOp.flush], rfl⟩
  have m := claim_C3_get_reader_cursor (((EventChannel.new Nat).send 5).flush)
    (SyncEventChannel.default Nat) h
  exact ⟨h, m.1, m.2.1, m.2.2.2.1, m.2.2.2.2⟩

/-- Claim C4: after send-A, flush, send-B, flush with no read in between,
the readable generation is exactly B's events, the pending buffer is empty
(A's events are gone from the state entirely), every read yields either B's
events in full or nothing (never any event of A), and a reader that never
read anything — cursor 0 (single-threaded fresh reader) or cursor 1
(thread-safe fresh reader) — reads exactly B's events. -/
theorem claim_C4_double_flush_loses_first_generation {T : Type}
    (c : EventChannel T) (xs ys : List T) (cur : Nat) :
    (((c.flush.sendAll xs).flush.sendAll ys).flush).readableEvents = ys ∧
    (((c.flush.sendAll xs).flush.sendAll ys).flush).pendingEvents = [] ∧
    ((EventReader.read (((c.flush.sendAll xs).flush.sendAll ys).flush) cur).1 = ys ∨
      (EventReader.read (((c.flush.sendAll xs).flush.sendAll ys).flush) cur).1 = []) ∧
    (EventReader.read (((c.flush.sendAll xs).flush.sendAll ys).flush) 0).1 = ys ∧
    (EventReader.read (((c.flush.sendAll xs).flush.sendAll ys).flush) 1).1 = ys := by
  have hread : (((c.flush.sendAll xs).flush.sendAll ys).flush).readableEvents = ys := by
    rw [flush_readableEvents, sendAll_pendingEvents, flush_pendingEvents]
    rfl
  have hidx : (((c.flush.sendAll xs).flush.sendAll ys).flush).readableIdx
      = ((c.flush.sendAll xs).flush).pendingIdx + ys.length := by
    rw [flush_readableIdx, sendAll_pendingIdx]
  refine ⟨hread, flush_pendingEvents _, ?_, ?_, ?_⟩
  · rcases read_fst_cases (((c.flush.sendAll xs).flush.sendAll ys).flush) cur with
      h | h
    · left; rw [h, hread]
    · right; exact h
  · rw [read_of_le _ 0 (Nat.zero_le _)]
    exact hread
  · by_cases h1 : 1 ≤ (((c.flush.sendAll xs).flush.sendAll ys).flush).readableIdx
    · rw [read_of_le _ 1 h1]
      exact hread
    · have hy : ys.length = 0 := by omega
      have hynil : ys = [] := List.eq_nil_of_length_eq_zero hy
      rw [read_of_gt _ 1 (by omega)]
      exact hynil.symm

/-- Claim C5 counterexample: a reader that already drained the current
generation and then calls `read()` twice with no intervening flush gets an
empty sequence from the FIRST of those two reads, not the full currently
flushed generation. -/
theorem claim_C5_counterexample :
    (EventReader.read (((EventChannel.new Nat).send 1).flush)
        (EventReader.read (((EventChannel.new Nat).send 1).flush)
          (((((EventChannel.new Nat).send 1).flush)).get_reader).read_events).2).1
      = [] ∧
    (((EventChannel.new Nat).send 1).flush).readableEvents = [1] ∧
    ([] : List Nat) ≠ [1] := by
  refine ⟨rfl, rfl, by decide⟩

/-- Claim C5, amended: for a reader that has not yet drained the currently
flushed generation (cursor ≤ readable counter), `read()` yields the full
generation; a second `read()` with no intervening flush always yields the
empty sequence (this holds for any cursor, so an already-drained reader
gets two empty reads); and the thread-safe reader's `read` computes exactly
the same function of channel and cursor as the single-threaded one. -/
theorem claim_C5_read_twice_drains {T : Type} (c : EventChannel T)
    (cur : Nat) :
    SyncEventReader.read c cur = EventReader.read c cur ∧
    (cur ≤ c.readableIdx → (EventReader.read c cur).1 = c.readableEvents) ∧
    (EventReader.read c (EventReader.read c cur).2).1 = [] := by
  refine ⟨sync_read_eq_read c cur, ?_, second_read_empty c cur⟩
  intro h
  rw [read_of_le c cur h]

theorem claim_C5_witness :
    (0 ≤ (((EventChannel.new Nat).send 7).flush).readableIdx) ∧
    (EventReader.read (((EventChannel.new Nat).send 7).flush) 0).1
      = (((EventChannel.new Nat).send 7).flush).readableEvents ∧
    (EventReader.read (((EventChannel.new Nat).send 7).flush)
        (EventReader.read (((EventChannel.new Nat).send 7).flush) 0).2).1 = [] :=
  ⟨Nat.zero_le _,
   (claim_C5_read_twice_drains (((EventChannel.new Nat).send 7).flush) 0).2.1
     (Nat.zero_le _),
   (claim_C5_read_twice_drains (((EventChannel.new Nat).send 7).flush) 0).2.2⟩

/-- Claim C6: a `read` by one reader mutates only that reader's cursor —
the channel (buffers, counters, readable flag) and every other reader's
cursor are unchanged — and when two distinct readers have both not yet
drained the current generation, each observes the full flushed generation
regardless of which reads first (the statement is symmetric in `r`, `r2`,
so it covers both orders). -/
theorem claim_C6_reader_independence {T : Type} (s : ChannelState T)
    (r r2 : Nat) (hne : r ≠ r2) :
    ((s.readOp r).1.channel = s.channel) ∧
    ((s.readOp r).1.cursors r2 = s.cursors r2) ∧
    (s.cursors r ≤ s.channel.readableIdx →
      s.cursors r2 ≤ s.channel.readableIdx →
      (s.readOp r).2 = s.channel.readableEvents ∧
      (((s.readOp r).1).readOp r2).2 = s.channel.readableEvents) := by
  have hch : (s.readOp r).1.channel = s.channel := rfl
  have hcur : (s.readOp r).1.cursors r2 = s.cursors r2 := by
    show (if r2 = r then _ else s.cursors r2) = s.cursors r2
    simp [Ne.symm hne]
  refine ⟨hch, hcur, ?_⟩
  intro h1 h2
  constructor
  · show (EventReader.read s.channel (s.cursors r)).1 = _
    rw [read_of_le _ _ h1]
  · show (EventReader.read (s.readOp r).1.channel ((s.readOp r).1.cursors r2)).1
      = _
    rw [hch, hcur, read_of_le _ _ h2]

theorem claim_C6_witness :
    ((0 : Nat) ≠ 1) ∧
    (0 ≤ (((EventChannel.new Nat).send 9).flush).readableIdx) ∧
    (({ channel := ((EventChannel.new Nat).send 9).flush,
        cursors := fun _ => 0 } : ChannelState Nat).readOp 0).2
      = (((EventChannel.new Nat).send 9).flush).readableEvents ∧
    (((({ channel := ((EventChannel.new Nat).send 9).flush,
          cursors := fun _ => 0 } : ChannelState Nat).readOp 0).1).readOp 1).2
      = (((EventChannel.new Nat).send 9).flush).readableEvents := by
  have m := claim_C6_reader_independence
    ({ channel := ((EventChannel.new Nat).send 9).flush,
       cursors := fun _ => 0 } : ChannelState Nat) 0 1 (by decide)
  exact ⟨by decide, Nat.zero_le _,
    (m.2.2 (Nat.zero_le _) (Nat.zero_le _)).1,
    (m.2.2 (Nat.zero_le _) (Nat.zero_le _)).2⟩

/-- Claim C7: `wait_new` returns immediately (without registering a parker)
iff the pending buffer is non-empty; otherwise it registers the fresh
parker on the new-event waiter set; a later `send` unparks every parker so
registered; and no other operation — flush, writer creation, a writer drop
that does not reach zero, or another thread's wait registration — unparks
or unregisters it (the parker is fresh, so it is on no other list). -/
theorem claim_C7_wait_new_blocking {T : Type} (s : SyncEventChannel T)
    (pid : Nat) (e : T) :
    ((SyncEventReader.wait_new s pid).1 = WaitOutcome.immediate ↔
      s.channel.pendingEvents ≠ []) ∧
    ((SyncEventReader.wait_new s pid).1 = WaitOutcome.immediate →
      (SyncEventReader.wait_new s pid).2 = s) ∧
    (s.channel.pendingEvents = [] →
      pid ∈ ((SyncEventReader.wait_new s pid).2).new_event_waiters) ∧
    (pid ∈ s.new_event_waiters → pid ∈ (s.send e).2) ∧
    (∀ op : SyncOp T, pid ∈ s.new_event_waiters →
      pid ∉ s.flushed_waiters →
      (∀ e2 : T, op ≠ SyncOp.send e2) →
      ¬(op = SyncOp.drop_writer ∧ usizeSub1 s.writers = 0) →
      pid ∈ (s.applyOp op).1.new_event_waiters ∧ pid ∉ (s.applyOp op).2) := by
  by_cases hn : s.has_new_events
  case pos =>
    have hp : s.channel.pendingEvents ≠ [] :=
      (has_new_events_iff_pending s).mp hn
    refine ⟨?_, ?_, ?_, ?_, ?_⟩
    · simp [SyncEventReader.wait_new, hn, hp]
    · intro _; simp [SyncEventReader.wait_new, hn]
    · intro hc; exact absurd hc hp
    · intro hmem
      simp [SyncEventChannel.send, signal_waiters]
      exact hmem
    · intro op hmem hnf hsend hdrop
      cases op with
      | send e2 => exact absurd rfl (hsend e2)
      | flush =>
        constructor
        · exact hmem
        · simpa [SyncEventChannel.applyOp, SyncEventChannel.flush,
            signal_waiters] using hnf
      | get_writer => exact ⟨hmem, by simp [SyncEventChannel.applyOp]⟩
      | drop_writer =>
        have hw : usizeSub1 s.writers ≠ 0 := fun h0 => hdrop ⟨rfl, h0⟩
        constructor
        · simp [SyncEventChannel.applyOp, SyncEventWriter.drop, hw]
          exact hmem
        · simp [SyncEventChannel.applyOp, SyncEventWriter.drop, hw]
      | wait_new pid2 =>
        constructor
        · by_cases h2 : s.has_new_events <;>
            simp [SyncEventChannel.applyOp, SyncEventReader.wait_new, h2,
              add_waiter] <;> [exact hmem; exact Or.inl hmem]
        · simp [SyncEventChannel.applyOp]
      | wait_flushed cur pid2 =>
        constructor
        · by_cases h2 : SyncEventReader.has_unread s.channel cur <;>
            simp [SyncEventChannel.applyOp, SyncEventReader.wait_flushed, h2] <;>
            exact hmem
        · simp [SyncEventChannel.applyOp]
  case neg =>
    have hp : ¬s.channel.pendingEvents ≠ [] := fun hc =>
      hn ((has_new_events_iff_pending s).mpr hc)
    refine ⟨?_, ?_, ?_, ?_, ?_⟩
    · simp [SyncEventReader.wait_new, hn, hp]
    · intro hc
      exact absurd hc (by simp [SyncEventReader.wait_new, hn])
    · intro _
      simp [SyncEventReader.wait_new, hn, add_waiter]
    · intro hmem
      simp [SyncEventChannel.send, signal_waiters]
      exact hmem
    · intro op hmem hnf hsend hdrop
      cases op with
      | send e2 => exact absurd rfl (hsend e2)
      | flush =>
        constructor
        · exact hmem
        · simpa [SyncEventChannel.applyOp, SyncEventChannel.flush,
            signal_waiters] using hnf
      | get_writer => exact ⟨hmem, by simp [SyncEventChannel.applyOp]⟩
      | drop_writer =>
        have hw : usizeSub1 s.writers ≠ 0 := fun h0 => hdrop ⟨rfl, h0⟩
        constructor
        · simp [SyncEventChannel.applyOp, SyncEventWriter.drop, hw]
          exact hmem
        · simp [SyncEventChannel.applyOp, SyncEventWriter.drop, hw]
      | wait_new pid2 =>
        constructor
        · by_cases h2 : s.has_new_events <;>
            simp [SyncEventChannel.applyOp, SyncEventReader.wait_new, h2,
              add_waiter] <;> [exact hmem; exact Or.inl hmem]
        · simp [SyncEventChannel.applyOp]
      | wait_flushed cur pid2 =>
        constructor
        · by_cases h2 : SyncEventReader.has_unread s.channel cur <;>
            simp [SyncEventChannel.applyOp, SyncEventReader.wait_flushed, h2] <;>
            exact hmem
        · simp [SyncEventChannel.applyOp]

theorem claim_C7_witness :
    ({ channel := (EventChannel.new Nat).send 4, new_event_waiters := [],
       flushed_waiters := [], writers := 1 } : SyncEventChannel Nat
      ).channel.pendingEvents ≠ [] ∧
    (SyncEventReader.wait_new
      ({ channel := (EventChannel.new Nat).send 4, new_event_waiters := [],
         flushed_waiters := [], writers := 1 } : SyncEventChannel Nat)
      3).1 = WaitOutcome.immediate ∧
    ({ channel := EventChannel.new Nat, new_event_waiters := [3],
       flushed_waiters := [], writers := 1 } : SyncEventChannel Nat
      ).channel.pendingEvents = [] ∧
    3 ∈ (SyncEventReader.wait_new
      ({ channel := EventChannel.new Nat, new_event_waiters := [3],
         flushed_waiters := [], writers := 1 } : SyncEventChannel Nat)
      3).2.new_event_waiters ∧
    3 ∈ (({ channel := EventChannel.new Nat, new_event_waiters := [3],
            flushed_waiters := [], writers := 1 } : SyncEventChannel Nat
      ).send 0).2 ∧
    3 ∈ (({ channel := EventChannel.new Nat, new_event_waiters := [3],
            flushed_waiters := [], writers := 1 } : SyncEventChannel Nat
      ).applyOp SyncOp.flush).1.new_event_waiters ∧
    3 ∉ (({ channel := EventChannel.new Nat, new_event_waiters := [3],
            flushed_waiters := [], writers := 1 } : SyncEventChannel Nat
      ).applyOp SyncOp.flush).2 := by
  have m1 := claim_C7_wait_new_blocking
    ({ channel := (EventChannel.new Nat).send 4, new_event_waiters := [],
       flushed_waiters := [], writers := 1 } : SyncEventChannel Nat) 3 0
  have m0 := claim_C7_wait_new_blocking
    ({ channel := EventChannel.new Nat, new_event_waiters := [3],
       flushed_waiters := [], writers := 1 } : SyncEventChannel Nat) 3 0
  have hframe := m0.2.2.2.2 SyncOp.flush (by decide) (by decide)
    (fun e2 h => SyncOp.noConfusion h) (fun h => SyncOp.noConfusion h.1)
  exact ⟨by decide, m1.1.mpr (by decide), by decide, m0.2.2.1 (by decide),
    m0.2.2.2.1 (by decide), hframe.1, hframe.2⟩

theorem wait_any_new_all_empty {T : Type} (pid : Nat)
    (ss : List (SyncEventChannel T))
    (h : ∀ x ∈ ss, x.channel.pendingEvents = []) :
    wait_any_new ss pid
      = (WaitOutcome.parked, ss.map (registerNewWaiter pid)) := by
  induction ss with
  | nil => rfl
  | cons s rest ih =>
    have hs : s.channel.pendingEvents = [] := h s (by simp)
    have hb : s.has_new_events = false := by
      cases hcase : s.has_new_events
      · rfl
      · exact absurd ((has_new_events_iff_pending s).mp hcase) (by simp [hs])
    have hok : SyncEventReader.add_unparker_new s pid
        = Except.ok (registerNewWaiter pid s) := by
      simp [SyncEventReader.add_unparker_new, hb, registerNewWaiter]
    show (match SyncEventReader.add_unparker_new s pid with
      | Except.error _ => (WaitOutcome.immediate, s :: rest)
      | Except.ok s2 =>
        let r := wait_any_new rest pid
        (r.1, s2 :: r.2)) = _
    rw [hok, ih (fun x hx => h x (by simp [hx]))]
    rfl

theorem wait_any_new_first_pending {T : Type} (pid : Nat)
    (ss1 : List (SyncEventChannel T)) (s : SyncEventChannel T)
    (ss2 : List (SyncEventChannel T))
    (h1 : ∀ x ∈ ss1, x.channel.pendingEvents = [])
    (hs : s.channel.pendingEvents ≠ []) :
    wait_any_new (ss1 ++ s :: ss2) pid
      = (WaitOutcome.immediate, ss1.map (registerNewWaiter pid) ++ s :: ss2) := by
  induction ss1 with
  | nil =>
    have hb : s.has_new_events = true := (has_new_events_iff_pending s).mpr hs
    have herr : SyncEventReader.add_unparker_new s pid
        = Except.error ("already new unflushed events") := by
      simp [SyncEventReader.add_unparker_new, hb]
    show (match SyncEventReader.add_unparker_new s pid with
      | Except.error _ => (WaitOutcome.immediate, s :: ss2)
      | Except.ok s2 =>
        let r := wait_any_new ss2 pid
        (r.1, s2 :: r.2)) = _
    rw [herr]
    rfl
  | cons a rest ih =>
    have ha : a.channel.pendingEvents = [] := h1 a (by simp)
    have hb : a.has_new_events = false := by
      cases hcase : a.has_new_events
      · rfl
      · exact absurd ((has_new_events_iff_pending a).mp hcase) (by simp [ha])
    have hok : SyncEventReader.add_unparker_new a pid
        = Except.ok (registerNewWaiter pid a) := by
      simp [SyncEventReader.add_unparker_new, hb, registerNewWaiter]
    show (match SyncEventReader.add_unparker_new a pid with
      | Except.error _ => (WaitOutcome.immediate, a :: (rest ++ s :: ss2))
      | Except.ok s2 =>
        let r := wait_any_new (rest ++ s :: ss2) pid
        (r.1, s2 :: r.2)) = _
    rw [hok, ih (fun x hx => h1 x (by simp [hx]))]
    rfl

/-- Claim C8: `add_unparker_new` fails (with the "already new unflushed
events" error) exactly when the channel already has pending unflushed
events, and on failure nothing is registered; on success it registers the
parker.  `wait_any_new` tries the readers in the given order: if every
channel before the first one with pending data is empty, it returns
immediately without parking, registering only that prefix and leaving the
reporting channel and everything after it untouched; if all channels are
empty it registers the parker with every one and parks. -/
theorem claim_C8_try_register_combinator {T : Type} (s : SyncEventChannel T)
    (pid : Nat) (ss1 ss2 : List (SyncEventChannel T)) :
    ((∃ msg, SyncEventReader.add_unparker_new s pid = Except.error msg) ↔
      s.channel.pendingEvents ≠ []) ∧
    (s.channel.pendingEvents = [] →
      SyncEventReader.add_unparker_new s pid
        = Except.ok (registerNewWaiter pid s)) ∧
    ((∀ x ∈ ss1, x.channel.pendingEvents = []) →
      s.channel.pendingEvents ≠ [] →
      wait_any_new (ss1 ++ s :: ss2) pid
        = (WaitOutcome.immediate, ss1.map (registerNewWaiter pid) ++ s :: ss2)) ∧
    ((∀ x ∈ ss1, x.channel.pendingEvents = []) →
      wait_any_new ss1 pid
        = (WaitOutcome.parked, ss1.map (registerNewWaiter pid))) := by
  refine ⟨?_, ?_, ?_, ?_⟩
  · constructor
    · rintro ⟨msg, hmsg⟩
      intro hp
      have hb : s.has_new_events = false := by
        cases hcase : s.has_new_events
        · rfl
        · exact absurd ((has_new_events_iff_pending s).mp hcase) (by simp [hp])
      simp [SyncEventReader.add_unparker_new, hb] at hmsg
    · intro hp
      have hb : s.has_new_events = true := (has_new_events_iff_pending s).mpr hp
      exact ⟨"already new unflushed events",
        by simp [SyncEventReader.add_unparker_new, hb]⟩
  · intro hp
    have hb : s.has_new_events = false := by
      cases hcase : s.has_new_events
      · rfl
      · exact absurd ((has_new_events_iff_pending s).mp hcase) (by simp [hp])
    simp [SyncEventReader.add_unparker_new, hb, registerNewWaiter]
  · exact wait_any_new_first_pending pid ss1 s ss2
  · exact wait_any_new_all_empty pid ss1

theorem claim_C8_witness :
    (({ channel := (EventChannel.new Nat).send 4, new_event_waiters := [],
        flushed_waiters := [], writers := 1 } : SyncEventChannel Nat
      ).channel.pendingEvents ≠ []) ∧
    (∃ msg, SyncEventReader.add_unparker_new
      ({ channel := (EventChannel.new Nat).send 4, new_event_waiters := [],
         flushed_waiters := [], writers := 1 } : SyncEventChannel Nat) 2
        = Except.error msg) ∧
    (SyncEventReader.add_unparker_new
      ({ channel := EventChannel.new Nat, new_event_waiters := [],
         flushed_waiters := [], writers := 1 } : SyncEventChannel Nat) 2
      = Except.ok (registerNewWaiter 2
        ({ channel := EventChannel.new Nat, new_event_waiters := [],
           flushed_waiters := [], writers := 1 } : SyncEventChannel Nat))) ∧
    (wait_any_new
      ([{ channel := EventChannel.new Nat, new_event_waiters := [],
          flushed_waiters := [], writers := 1 }] ++
        ({ channel := (EventChannel.new Nat).send 4, new_event_waiters := [],
           flushed_waiters := [], writers := 1 } : SyncEventChannel Nat) :: []) 2
      = (WaitOutcome.immediate,
         [{ channel := EventChannel.new Nat, new_event_waiters := [],
            flushed_waiters := [], writers := 1 }].map (registerNewWaiter 2) ++
           ({ channel := (EventChannel.new Nat).send 4, new_event_waiters := [],
              flushed_waiters := [], writers := 1 } : SyncEventChannel Nat)
             :: [])) ∧
    (wait_any_new
      [({ channel := EventChannel.new Nat, new_event_waiters := [],
          flushed_waiters := [], writers := 1 } : SyncEventChannel Nat)] 2
      = (WaitOutcome.parked,
         [({ channel := EventChannel.new Nat, new_event_waiters := [],
             flushed_waiters := [], writers := 1 } : SyncEventChannel Nat)].map
           (registerNewWaiter 2))) := by
  have mp := claim_C8_try_register_combinator
    ({ channel := (EventChannel.new Nat).send 4, new_event_waiters := [],
       flushed_waiters := [], writers := 1 } : SyncEventChannel Nat) 2
    [{ channel := EventChannel.new Nat, new_event_waiters := [],
       flushed_waiters := [], writers := 1 }] []
  have me := claim_C8_try_register_combinator
    ({ channel := EventChannel.new Nat, new_event_waiters := [],
       flushed_waiters := [], writers := 1 } : SyncEventChannel Nat) 2 [] []
  refine ⟨by decide, mp.1.mpr (by decide), me.2.1 rfl, ?_, ?_⟩
  · exact mp.2.2.1 (by intro x hx; simp at hx; rw [hx]; rfl) (by decide)
  · have := claim_C8_try_register_combinator
      ({ channel := EventChannel.new Nat, new_event_waiters := [],
         flushed_waiters := [], writers := 1 } : SyncEventChannel Nat) 2
      [({ channel := EventChannel.new Nat, new_event_waiters := [],
          flushed_waiters := [], writers := 1 } : SyncEventChannel Nat)] []
    exact this.2.2.2 (by intro x hx; simp at hx; rw [hx]; rfl)

theorem try_get_append_of_none {V : Type} (w : ContainerSendSync V)
    (tid : Nat) (v : V) (h : w.try_get tid = none) :
    (ContainerSendSync.mk (w.entries ++ [(tid, v)])).try_get tid = some v := by
  obtain ⟨l⟩ := w
  simp only [ContainerSendSync.try_get] at h ⊢
  induction l with
  | nil => simp
  | cons hd tl ih =>
    cases hbeq : (hd.1 == tid) with
    | true => simp [List.find?, hbeq] at h
    | false =>
      simp only [List.cons_append, List.find?, hbeq] at h ⊢
      exact ih h

/-- Claim C9: `get_resource` returns the not-found error iff nothing of
that type was stored, and the stored value otherwise; `set_resource`
returns `Ok` (storing the value) the first time and the already-present
error — leaving the first stored value unchanged and still returned by
`get_resource` — on every later attempt for the same type. -/
theorem claim_C9_registry_contract {V : Type} (w : ContainerSendSync V)
    (tid : Nat) (v v2 : V) :
    (World.get_resource w tid = Except.error ("No suce resource") ↔
      w.try_get tid = none) ∧
    (∀ u, w.try_get tid = some u → World.get_resource w tid = Except.ok u) ∧
    (w.try_get tid = none →
      World.set_resource w tid v
        = Except.ok (ContainerSendSync.mk (w.entries ++ [(tid, v)]))) ∧
    (∀ u, w.try_get tid = some u →
      World.set_resource w tid v = Except.error ("Resource already set")) ∧
    (w.try_get tid = none →
      World.set_resource (ContainerSendSync.mk (w.entries ++ [(tid, v)])) tid v2
        = Except.error ("Resource already set") ∧
      World.get_resource (ContainerSendSync.mk (w.entries ++ [(tid, v)])) tid
        = Except.ok v) := by
  refine ⟨?_, ?_, ?_, ?_, ?_⟩
  · constructor
    · intro hg
      cases hcase : w.try_get tid with
      | none => rfl
      | some u => simp [World.get_resource, hcase] at hg
    · intro hn
      simp [World.get_resource, hn]
  · intro u hu
    simp [World.get_resource, hu]
  · intro hn
    simp [World.set_resource, ContainerSendSync.set, hn]
  · intro u hu
    simp [World.set_resource, ContainerSendSync.set, hu]
  · intro hn
    have hg := try_get_append_of_none w tid v hn
    constructor
    · simp [World.set_resource, ContainerSendSync.set, hg]
    · simp [World.get_resource, hg]

theorem claim_C9_witness :
    ((ContainerSendSync.mk ([] : List (Nat × Nat))).try_get 5 = none) ∧
    (World.set_resource (ContainerSendSync.mk ([] : List (Nat × Nat))) 5 11
      = Except.ok (ContainerSendSync.mk [(5, 11)])) ∧
    (World.set_resource (ContainerSendSync.mk [(5, 11)]) 5 12
      = Except.error ("Resource already set")) ∧
    (World.get_resource (ContainerSendSync.mk [(5, 11)]) 5
      = Except.ok 11) ∧
    (World.get_resource (ContainerSendSync.mk ([] : List (Nat × Nat))) 5
      = Except.error ("No suce resource")) := by
  have m := claim_C9_registry_contract (ContainerSendSync.mk ([] : List (Nat × Nat)))
    5 11 12
  exact ⟨rfl, m.2.2.1 rfl, (m.2.2.2.2 rfl).1, (m.2.2.2.2 rfl).2,
    m.1.mpr rfl⟩

/-- Claim C10 (implicit invariant): in every state reachable from a fresh
channel by sends, flushes and reads, the pending counter equals the
readable counter plus the pending buffer's length; hence the pending
buffer is non-empty exactly when the two counters differ, and the
`has_new_events` check (pending buffer non-empty) is equivalent to
"the counters differ", i.e. to "unflushed data exists". -/
theorem claim_C10_pending_counter_invariant {T : Type} (c : EventChannel T)
    (nw fw : List Nat) (wr : Nat) (h : Reachable c) :
    c.pendingIdx = c.readableIdx + c.pendingEvents.length ∧
    (c.pendingEvents ≠ [] ↔ c.pendingIdx ≠ c.readableIdx) ∧
    (({ channel := c, new_event_waiters := nw, flushed_waiters := fw,
        writers := wr } : SyncEventChannel T).has_new_events = true ↔
      c.pendingIdx ≠ c.readableIdx) := by
  have h1 := (reachable_inv c h).1
  have h2 : c.pendingEvents ≠ [] ↔ c.pendingIdx ≠ c.readableIdx := by
    constructor
    · intro hne
      have hl : 0 < c.pendingEvents.length := List.length_pos_iff_ne_nil.mpr hne
      omega
    · intro hne hnil
      rw [hnil] at h1
      simp at h1
      exact hne (by omega)
  exact ⟨h1, h2, (has_new_events_iff_pending _).trans h2⟩

theorem claim_C10_witness :
    Reachable ((EventChannel.new Nat).send 2) ∧
    ((EventChannel.new Nat).send 2).pendingIdx
      = ((EventChannel.new Nat).send 2).readableIdx
        + ((EventChannel.new Nat).send 2).pendingEvents.length ∧
    (({ channel := (EventChannel.new Nat).send 2, new_event_waiters := [],
        flushed_waiters := [], writers := 0 } : SyncEventChannel Nat
      ).has_new_events = true ↔
      ((EventChannel.new Nat).send 2).pendingIdx
        ≠ ((EventChannel.new Nat).send 2).readableIdx) := by
  have h : Reachable ((EventChannel.new Nat).send 2) :=
    ⟨[ChanOp.send 2], rfl⟩
  have m := claim_C10_pending_counter_invariant ((EventChannel.new Nat).send 2)
    [] [] 0 h
  exact ⟨h, m.1, m.2.2⟩

end RustLy
